import Mathlib

/-!
Verification development for the ipv6domains repository (Go).

The embedding below follows the latest version of the program's single
source file: the types Result, the functions QueryHost, isNotfound,
QueryDomain, Rank and checkDom, together with a model of the parts of the
Go standard library the program calls (netip.ParseAddr / Addr.Is4 /
Addr.Is6 / Addr.String, strings.TrimPrefix, strings.Repeat, sort.Strings).
DNS itself (net.LookupHost, net.LookupNS, net.LookupMX) is an external
effect; it is modelled as an explicit environment of lookup functions so
that QueryDomain becomes a pure function of that environment.
-/

/-- Model of a Go error value as the program observes it: either a
DNSError carrying its IsNotFound flag (the only field the program reads)
or some other error. -/
inductive GoErr where
  | dnsError (nf : Bool) (msg : String)
  | other (msg : String)
deriving DecidableEq, Repr

/-- Go isNotfound: type-asserts the error to a DNSError and reads
IsNotFound; any other error kind yields false. -/
def isNotfound : GoErr → Bool
  | .dnsError nf _ => nf
  | .other _ => false

/-- Message of a modelled Go error, used when the program formats the
error with fmt. -/
def goErrMsg : GoErr → String
  | .dnsError _ m => m
  | .other m => m

/-- Model of netip.Addr: an IPv4 address (four bytes) or an IPv6 address
(eight 16-bit groups).  Zones are not modelled; resolver output never
carries one. -/
inductive Addr where
  | v4 (b0 b1 b2 b3 : Nat)
  | v6 (g0 g1 g2 g3 g4 g5 g6 g7 : Nat)
deriving DecidableEq, Repr

/-- netip Addr.Is4: true exactly for the four-byte form. -/
def Addr.is4 : Addr → Bool
  | .v4 .. => true
  | .v6 .. => false

/-- netip Addr.Is6: true exactly for the sixteen-byte form (including
IPv4-mapped IPv6 addresses). -/
def Addr.is6 : Addr → Bool
  | .v4 .. => false
  | .v6 .. => true

/-- Split a character list on a separator character, keeping empty
pieces, as Go strings.Split does. -/
def splitChar (sep : Char) : List Char → List (List Char)
  | [] => [[]]
  | c :: rest =>
    let r := splitChar sep rest
    if c = sep then [] :: r
    else
      match r with
      | [] => [[c]]
      | g :: gs => (c :: g) :: gs

/-- Split a character list at the first occurrence of a double colon,
returning the pieces before and after it, if present. -/
def splitDC : List Char → Option (List Char × List Char)
  | [] => none
  | c :: rest =>
    match rest with
    | [] => none
    | c2 :: rest2 =>
      if c = ':' ∧ c2 = ':' then some ([], rest2)
      else
        match splitDC rest with
        | none => none
        | some (l, r) => some (c :: l, r)

/-- Whether a character list contains a double colon. -/
def containsDC (cs : List Char) : Bool := (splitDC cs).isSome

/-- First occurrence of a dot, colon or percent sign, the dispatch
netip.ParseAddr performs to choose the address family parser. -/
def firstSpecial : List Char → Option Char
  | [] => none
  | c :: cs => if c = '.' ∨ c = ':' ∨ c = '%' then some c else firstSpecial cs

/-- Parse one decimal IPv4 field: one to three digits, no leading zero,
value at most 255, following netip parseIPv4. -/
def parseV4Field (f : List Char) : Option Nat :=
  if f = [] then none
  else if ¬ f.all (fun c => c.isDigit) then none
  else if 3 < f.length then none
  else if 1 < f.length ∧ f.head? = some '0' then none
  else
    let v := f.foldl (fun n c => n * 10 + (c.toNat - 48)) 0
    if v ≤ 255 then some v else none

/-- netip parseIPv4: exactly four dot-separated decimal fields. -/
def parseIPv4 (cs : List Char) : Option Addr :=
  match (splitChar '.' cs).mapM parseV4Field with
  | some [a, b, c, d] => some (.v4 a b c d)
  | _ => none

/-- Hexadecimal digit test for IPv6 groups. -/
def isHexDigitChar (c : Char) : Bool :=
  c.isDigit || ('a' ≤ c && c ≤ 'f') || ('A' ≤ c && c ≤ 'F')

/-- Value of a hexadecimal digit. -/
def hexDigitVal (c : Char) : Nat :=
  if c.isDigit then c.toNat - 48
  else if 'a' ≤ c ∧ c ≤ 'f' then c.toNat - 87
  else c.toNat - 55

/-- Parse one IPv6 group: one to four hexadecimal digits. -/
def parseHexGroup (f : List Char) : Option Nat :=
  if f = [] then none
  else if 4 < f.length then none
  else if ¬ f.all isHexDigitChar then none
  else some (f.foldl (fun n c => n * 16 + hexDigitVal c) 0)

/-- Parse colon-separated IPv6 pieces into 16-bit groups.  The final
piece may be an embedded dotted-quad IPv4 address, contributing two
groups, when it sits at the end of the whole address (netip only accepts
an embedded IPv4 part there). -/
def parseGroups : List (List Char) → Bool → Option (List Nat)
  | [], _ => some []
  | [f], allowV4 =>
    if allowV4 && f.contains '.' then
      match parseIPv4 f with
      | some (Addr.v4 a b c d) => some [a * 256 + b, c * 256 + d]
      | _ => none
    else
      match parseHexGroup f with
      | some g => some [g]
      | none => none
  | f :: g :: fs, allowV4 =>
    match parseHexGroup f, parseGroups (g :: fs) allowV4 with
    | some v, some vs => some (v :: vs)
    | _, _ => none

/-- Build an IPv6 address from exactly eight groups. -/
def mkV6 : List Nat → Option Addr
  | [g0, g1, g2, g3, g4, g5, g6, g7] => some (.v6 g0 g1 g2 g3 g4 g5 g6 g7)
  | _ => none

/-- netip parseIPv6: either exactly eight groups, or a single double
colon expanding to the missing zero groups (at least one), with an
optional embedded IPv4 part in the final position.  Zones are rejected
here since the program never produces them. -/
def parseIPv6 (cs : List Char) : Option Addr :=
  if cs.contains '%' then none
  else
    match splitDC cs with
    | none =>
      match parseGroups (splitChar ':' cs) true with
      | some gs => if gs.length = 8 then mkV6 gs else none
      | none => none
    | some (l, r) =>
      if containsDC r then none
      else
        let lps := if l = [] then [] else splitChar ':' l
        let rps := if r = [] then [] else splitChar ':' r
        match parseGroups lps false, parseGroups rps true with
        | some gl, some gr =>
          if gl.length + gr.length < 8 then
            mkV6 (gl ++ List.replicate (8 - (gl.length + gr.length)) 0 ++ gr)
          else none
        | _, _ => none

/-- netip.ParseAddr: dispatch on the first special character, as the Go
library does; addresses with neither a dot nor a colon are invalid. -/
def parseAddr (s : String) : Option Addr :=
  match firstSpecial s.data with
  | some '.' => parseIPv4 s.data
  | some ':' => parseIPv6 s.data
  | _ => none

/-- Decimal rendering of a byte value. -/
def natDecimal (n : Nat) : List Char := Nat.toDigits 10 n

/-- Lowercase hexadecimal rendering of a group value. -/
def hexChars (n : Nat) : List Char := Nat.toDigits 16 n

/-- Dotted-quad rendering of an IPv4 address. -/
def v4Chars (a b c d : Nat) : List Char :=
  natDecimal a ++ '.' :: natDecimal b ++ '.' :: natDecimal c ++ '.' :: natDecimal d

/-- Length of the run of zero groups starting at the head. -/
def zeroRunLen : List Nat → Nat
  | [] => 0
  | g :: gs => if g = 0 then zeroRunLen gs + 1 else 0

/-- Best (longest, leftmost, length at least two) run of zero groups:
scan every start position keeping a strictly improving best, as the Go
library does. -/
def bestZeroRun : List Nat → Nat → Nat × Nat → Nat × Nat
  | [], _, best => best
  | gs@(_ :: rest), i, (bs, bl) =>
    let rl := zeroRunLen gs
    let best2 := if 2 ≤ rl ∧ bl < rl then (i, rl) else (bs, bl)
    bestZeroRun rest (i + 1) best2

/-- Join groups with colons in lowercase hexadecimal. -/
def joinColon : List Nat → List Char
  | [] => []
  | [g] => hexChars g
  | g :: rest => hexChars g ++ ':' :: joinColon rest

/-- RFC 5952 style rendering of eight IPv6 groups: compress the best run
of zero groups with a double colon. -/
def v6Chars (gs : List Nat) : List Char :=
  let best := bestZeroRun gs 0 (8, 0)
  if 2 ≤ best.2 then
    joinColon (gs.take best.1) ++ ':' :: ':' :: joinColon (gs.drop (best.1 + best.2))
  else joinColon gs

/-- netip Addr.String: dotted quad for IPv4, the special IPv4-mapped
form for v4-in-v6 addresses, canonical compressed hexadecimal
otherwise. -/
def addrString : Addr → String
  | .v4 a b c d => String.mk (v4Chars a b c d)
  | .v6 g0 g1 g2 g3 g4 g5 g6 g7 =>
    if g0 = 0 ∧ g1 = 0 ∧ g2 = 0 ∧ g3 = 0 ∧ g4 = 0 ∧ g5 = 65535 then
      String.mk (':' :: ':' :: 'f' :: 'f' :: 'f' :: 'f' :: ':' ::
        v4Chars (g6 / 256) (g6 % 256) (g7 / 256) (g7 % 256))
    else String.mk (v6Chars [g0, g1, g2, g3, g4, g5, g6, g7])

/-- Environment of DNS lookups the program delegates to the operating
system resolver: host addresses, name-server host names and
mail-exchanger host names. -/
structure DnsEnv where
  lookupHost : String → Except GoErr (List String)
  lookupNS : String → Except GoErr (List String)
  lookupMX : String → Except GoErr (List String)

/-- Loop body of QueryHost: parse one resolver string and append its
canonical form to the IPv4 list when Is4 holds and to the IPv6 list when
Is6 holds; a string that does not parse is dropped. -/
def classifyAddr (acc : List String × List String) (h : String) :
    List String × List String :=
  match parseAddr h with
  | none => acc
  | some a =>
    let acc1 := if a.is4 then (acc.1 ++ [addrString a], acc.2) else acc
    if a.is6 then (acc1.1, acc1.2 ++ [addrString a]) else acc1

/-- The classification loop of QueryHost over a whole resolver answer. -/
def classifyAddrs (addrs : List String) : List String × List String :=
  addrs.foldl classifyAddr ([], [])

/-- Go QueryHost: net.LookupHost followed by the classification loop; a
lookup error is returned unmodified with nil lists. -/
def QueryHost (env : DnsEnv) (host : String) :
    Except GoErr (List String × List String) :=
  match env.lookupHost host with
  | .error e => .error e
  | .ok addrs => .ok (classifyAddrs addrs)

/-- The Result struct of the program: the domain name and the eight
address lists, IPv4 and IPv6, for the apex hosts, the name servers, the
mail exchangers and the www variant, plus the never-set DNS6Only flag. -/
structure Result where
  Domain : String
  Host4 : List String
  Host6 : List String
  NS4 : List String
  NS6 : List String
  DNS6Only : Bool
  MX4 : List String
  MX6 : List String
  WWW4 : List String
  WWW6 : List String
deriving DecidableEq, Repr

/-- Errors QueryDomain can return, one constructor per fmt.Errorf call
site, each carrying the underlying lookup error where one exists. -/
inductive QueryErr where
  | queryHostFailed (e : GoErr)
  | queryHostWwwFailed (e : GoErr)
  | lookupNSFailed (e : GoErr)
  | noNameServers
  | nsHostFailed (e : GoErr)
  | lookupMXFailed (e : GoErr)
  | mxHostFailed (e : GoErr)
deriving DecidableEq, Repr

/-- Message text of a QueryDomain error, mirroring the fmt.Errorf format
strings of the program. -/
def errText : QueryErr → String
  | .queryHostFailed e => "QueryHost failed: " ++ goErrMsg e
  | .queryHostWwwFailed e => "QueryHost (www) failed: " ++ goErrMsg e
  | .lookupNSFailed e => "LookupNS failed: " ++ goErrMsg e
  | .noNameServers => "LookupNS failed: domain has no NS"
  | .nsHostFailed e => "QueryHost for NS failed: " ++ goErrMsg e
  | .lookupMXFailed e => "LookupMX failed: " ++ goErrMsg e
  | .mxHostFailed e => "QueryHost for MX failed: " ++ goErrMsg e

/-- The recurring policy of QueryDomain on a pair-returning lookup: a
not-found error is tolerated with nil lists, any other error aborts with
the tagged error. -/
def tolerateNF (x : Except GoErr (List String × List String))
    (mk : GoErr → QueryErr) : Except QueryErr (List String × List String) :=
  match x with
  | .error e => if isNotfound e then .ok ([], []) else .error (mk e)
  | .ok p => .ok p

/-- The same policy on a list-returning lookup. -/
def tolerateNFList (x : Except GoErr (List String)) (mk : GoErr → QueryErr) :
    Except QueryErr (List String) :=
  match x with
  | .error e => if isNotfound e then .ok [] else .error (mk e)
  | .ok l => .ok l

/-- The NS loop of QueryDomain: resolve every name server host and
append, aborting on any QueryHost error. -/
def resolveNSHosts (env : DnsEnv) : List String → Except QueryErr (List String × List String)
  | [] => .ok ([], [])
  | h :: t =>
    match QueryHost env h with
    | .error e => .error (QueryErr.nsHostFailed e)
    | .ok (a4, a6) =>
      match resolveNSHosts env t with
      | .error e => .error e
      | .ok (r4, r6) => .ok (a4 ++ r4, a6 ++ r6)

/-- The MX loop of QueryDomain: resolve every mail exchanger host and
append; an individual not-found failure contributes the nil lists
QueryHost returned, any other failure aborts. -/
def resolveMXHosts (env : DnsEnv) : List String → Except QueryErr (List String × List String)
  | [] => .ok ([], [])
  | h :: t =>
    match QueryHost env h with
    | .error e =>
      if isNotfound e then
        match resolveMXHosts env t with
        | .error e2 => .error e2
        | .ok (r4, r6) => .ok (r4, r6)
      else .error (QueryErr.mxHostFailed e)
    | .ok (a4, a6) =>
      match resolveMXHosts env t with
      | .error e2 => .error e2
      | .ok (r4, r6) => .ok (a4 ++ r4, a6 ++ r6)

/-- Go sort.Strings: ascending lexicographic sort. -/
def sortStrings (l : List String) : List String :=
  List.insertionSort (fun a b => a ≤ b) l

/-- Go strings.HasPrefix on the underlying characters. -/
def hasPref (s pre : String) : Bool := pre.data.isPrefixOf s.data

/-- Go strings.TrimPrefix: remove one leading occurrence of the prefix
when present. -/
def trimPref (s pre : String) : String :=
  if hasPref s pre then String.mk (s.data.drop pre.data.length) else s

/-- Body of QueryDomain after the www prefix was stripped: the four
lookup stages in program order, ending with the sorted record. -/
def queryDomainGo (env : DnsEnv) (domain : String) : Except QueryErr Result :=
  match tolerateNF (QueryHost env domain) QueryErr.queryHostFailed with
  | .error e => .error e
  | .ok (h4, h6) =>
    match tolerateNF (QueryHost env ("www." ++ domain)) QueryErr.queryHostWwwFailed with
    | .error e => .error e
    | .ok (w4, w6) =>
      match tolerateNFList (env.lookupNS domain) QueryErr.lookupNSFailed with
      | .error e => .error e
      | .ok nss =>
        if nss.length = 0 then .error QueryErr.noNameServers
        else
          match resolveNSHosts env nss with
          | .error e => .error e
          | .ok (ns4, ns6) =>
            match tolerateNFList (env.lookupMX domain) QueryErr.lookupMXFailed with
            | .error e => .error e
            | .ok mxs =>
              match resolveMXHosts env mxs with
              | .error e => .error e
              | .ok (mx4, mx6) =>
                .ok { Domain := domain
                      Host4 := sortStrings h4
                      Host6 := sortStrings h6
                      NS4 := sortStrings ns4
                      NS6 := sortStrings ns6
                      DNS6Only := false
                      MX4 := sortStrings mx4
                      MX6 := sortStrings mx6
                      WWW4 := sortStrings w4
                      WWW6 := sortStrings w6 }

/-- Go QueryDomain: strip one leading www label, then run the lookup
stages. -/
def QueryDomain (env : DnsEnv) (dom : String) : Except QueryErr Result :=
  queryDomainGo env (trimPref dom "www.")

/-- Go strings.Repeat: the string concatenated with itself count
times. -/
def strRepeat (s : String) : Nat → String
  | 0 => ""
  | n + 1 => s ++ strRepeat s n

/-- Go Rank: the question-mark sentinel for a nil record, otherwise one
star per satisfied condition, accumulated in program order. -/
def Rank : Option Result → String
  | none => "?????"
  | some r =>
    let stars := 0
    let stars := if 0 < r.Host6.length then stars + 1 else stars
    let stars := if 0 < r.MX4.length ∧ 0 < r.MX6.length then stars + 1 else stars
    let stars := if 0 < r.WWW4.length ∧ 0 < r.WWW6.length then stars + 1 else stars
    let stars := if 0 < r.NS6.length then stars + 2 else stars
    strRepeat "*" stars

/-- Score of a record written as the spec describes it: a sum of four
independent, order-independent contributions. -/
def specScore (r : Result) : Nat :=
  (if 0 < r.Host6.length then 1 else 0) +
  (if 0 < r.MX4.length ∧ 0 < r.MX6.length then 1 else 0) +
  (if 0 < r.WWW4.length ∧ 0 < r.WWW6.length then 1 else 0) +
  (if 0 < r.NS6.length then 2 else 0)

/-- Go checkDom, modelled as the single output line it prints for a
domain, if any: the name with the error cause on failure, the counts
line outside modes 4, 6 and 1, the bare name under the matching filter
mode, nothing otherwise. -/
def checkDom (env : DnsEnv) (dom : String) (mode : Int) : Option String :=
  match QueryDomain env dom with
  | .error e => some (dom ++ ", (" ++ errText e ++ ")")
  | .ok r =>
    if mode ≠ 4 ∧ mode ≠ 6 ∧ mode ≠ 1 then
      some (r.Domain ++ ", " ++ Nat.repr r.Host4.length ++ ", " ++
        Nat.repr r.WWW4.length ++ ", " ++ Nat.repr r.Host6.length ++ ", " ++
        Nat.repr r.WWW6.length)
    else
      let ip4 := 0 < r.Host4.length + r.WWW4.length
      let ip6 := 0 < r.Host6.length + r.WWW6.length
      if mode = 6 ∧ ip6 ∧ ¬ ip4 then some r.Domain
      else if mode = 4 ∧ ¬ ip6 ∧ ip4 then some r.Domain
      else none

/-- Success of a stage under the tolerate-not-found policy: the lookup
succeeded or failed with the tolerated not-found error. -/
def stageOk {α : Type} : Except GoErr α → Bool
  | .ok _ => true
  | .error e => isNotfound e

/-- Whether an Except value carries a result. -/
def exceptOk {ε α : Type} : Except ε α → Bool
  | .ok _ => true
  | .error _ => false

/-- List carried by a list-returning lookup after not-found tolerance:
the answer on success, nil on error. -/
def okList : Except GoErr (List String) → List String
  | .ok l => l
  | .error _ => []

/-- Name-server host names the resolver sees for a stripped domain. -/
def nsHostsOf (env : DnsEnv) (d : String) : List String := okList (env.lookupNS d)

/-- Mail-exchanger host names the resolver sees for a stripped
domain. -/
def mxHostsOf (env : DnsEnv) (d : String) : List String := okList (env.lookupMX d)

/-- A string that is the canonical form of some IPv4 address. -/
def isV4Render (s : String) : Prop := ∃ a : Addr, a.is4 = true ∧ addrString a = s

/-- A string that is the canonical form of some IPv6 address. -/
def isV6Render (s : String) : Prop := ∃ a : Addr, a.is6 = true ∧ addrString a = s

/-- The full invariant of claim C3 on one record: all eight address
lists sorted ascending and every entry of the right family. -/
def sortedAndFamilyOk (r : Result) : Prop :=
  List.Sorted (fun a b => a ≤ b) r.Host4 ∧ List.Sorted (fun a b => a ≤ b) r.Host6 ∧
  List.Sorted (fun a b => a ≤ b) r.WWW4 ∧ List.Sorted (fun a b => a ≤ b) r.WWW6 ∧
  List.Sorted (fun a b => a ≤ b) r.NS4 ∧ List.Sorted (fun a b => a ≤ b) r.NS6 ∧
  List.Sorted (fun a b => a ≤ b) r.MX4 ∧ List.Sorted (fun a b => a ≤ b) r.MX6 ∧
  (∀ s ∈ r.Host4, isV4Render s) ∧ (∀ s ∈ r.Host6, isV6Render s) ∧
  (∀ s ∈ r.WWW4, isV4Render s) ∧ (∀ s ∈ r.WWW6, isV6Render s) ∧
  (∀ s ∈ r.NS4, isV4Render s) ∧ (∀ s ∈ r.NS6, isV6Render s) ∧
  (∀ s ∈ r.MX4, isV4Render s) ∧ (∀ s ∈ r.MX6, isV6Render s)

/-- Environment in which every host resolves to one IPv4 address, every
domain has one name server and no mail exchanger. -/
def envS : DnsEnv where
  lookupHost _ := .ok ["192.0.2.1"]
  lookupNS _ := .ok ["ns1.example.net"]
  lookupMX _ := .ok []

/-- Record QueryDomain returns for example.com in envS. -/
def rW : Result where
  Domain := "example.com"
  Host4 := ["192.0.2.1"]
  Host6 := []
  NS4 := ["192.0.2.1"]
  NS6 := []
  DNS6Only := false
  MX4 := []
  MX6 := []
  WWW4 := ["192.0.2.1"]
  WWW6 := []

/-- Record QueryDomain returns for www.www.example.com in envS. -/
def rWW : Result where
  Domain := "www.example.com"
  Host4 := ["192.0.2.1"]
  Host6 := []
  NS4 := ["192.0.2.1"]
  NS6 := []
  DNS6Only := false
  MX4 := []
  MX6 := []
  WWW4 := ["192.0.2.1"]
  WWW6 := []

/-- Environment whose apex, www and name-server lookups all succeed
dual-stack while resolving the single mail exchanger host fails with an
error that is not the not-found kind. -/
def envMxHard : DnsEnv where
  lookupHost h :=
    if h = "mx1.example.net" then .error (GoErr.other "i/o timeout")
    else .ok ["192.0.2.1", "2001:db8::1"]
  lookupNS _ := .ok ["ns1.example.net"]
  lookupMX _ := .ok ["mx1.example.net"]

/-- Environment identical to envMxHard except that the mail exchanger
host fails with the tolerated not-found error. -/
def envMxNF : DnsEnv where
  lookupHost h :=
    if h = "mx1.example.net" then .error (GoErr.dnsError true "no such host")
    else .ok ["192.0.2.1", "2001:db8::1"]
  lookupNS _ := .ok ["ns1.example.net"]
  lookupMX _ := .ok ["mx1.example.net"]

/-- Environment in which the NS lookup succeeds with zero name
servers. -/
def envNoNS : DnsEnv where
  lookupHost _ := .ok ["192.0.2.1"]
  lookupNS _ := .ok []
  lookupMX _ := .ok []

/-- Environment in which the apex host lookup itself fails hard, so
resolution fails before any record exists. -/
def envApexHard : DnsEnv where
  lookupHost _ := .error (GoErr.other "timeout")
  lookupNS _ := .ok ["ns1.example.net"]
  lookupMX _ := .ok []

/-- The dual-stack record of the concrete scenario of claim C4: one
address of each family at the apex and at www, a name server with an
IPv6 address, a mail exchanger with both families. -/
def rDual : Result where
  Domain := "dual.example"
  Host4 := ["192.0.2.1"]
  Host6 := ["2001:db8::1"]
  NS4 := []
  NS6 := ["2001:db8::53"]
  DNS6Only := false
  MX4 := ["192.0.2.25"]
  MX6 := ["2001:db8::25"]
  WWW4 := ["192.0.2.2"]
  WWW6 := ["2001:db8::2"]

/-- A successfully resolved record with no qualifying scoring
condition. -/
def emptyRec : Result where
  Domain := "empty.example"
  Host4 := ["192.0.2.1"]
  Host6 := []
  NS4 := ["192.0.2.9"]
  NS6 := []
  DNS6Only := false
  MX4 := []
  MX6 := []
  WWW4 := []
  WWW6 := []

instance {ε α : Type} [DecidableEq ε] [DecidableEq α] : DecidableEq (Except ε α) := fun x y =>
  match x, y with
  | .ok a, .ok b =>
    if h : a = b then isTrue (by rw [h]) else isFalse (fun he => by cases he; exact h rfl)
  | .error a, .error b =>
    if h : a = b then isTrue (by rw [h]) else isFalse (fun he => by cases he; exact h rfl)
  | .ok _, .error _ => isFalse (fun he => by cases he)
  | .error _, .ok _ => isFalse (fun he => by cases he)

theorem strRepeat_length (s : String) (n : Nat) :
    (strRepeat s n).length = n * s.length := by
  induction n with
  | zero => rw [Nat.zero_mul]; rfl
  | succ n ih => rw [strRepeat, String.length_append, ih, Nat.succ_mul]; omega

theorem strRepeat_star_data (n : Nat) :
    (strRepeat "*" n).data = List.replicate n '*' := by
  induction n with
  | zero => rfl
  | succ n ih =>
    show ("*" ++ strRepeat "*" n).data = '*' :: List.replicate n '*'
    rw [String.data_append, ih]
    rfl

theorem Rank_some_eq (r : Result) :
    Rank (some r) = strRepeat "*" (specScore r) := by
  simp only [Rank, specScore]
  split_ifs <;> rfl

theorem rank_star_ne (n : Nat) : strRepeat "*" n ≠ "?????" := by
  intro h
  have h2 : n * 1 = 5 := by
    have h3 := congrArg String.length h
    rw [strRepeat_length] at h3
    exact h3
  have h5 : n = 5 := by omega
  subst h5
  exact absurd h (by decide)

/-- Claim C4: for every non-missing record the score is the sum of the
four independent contributions (+1 apex IPv6, +1 dual-stack MX, +1
dual-stack www, +2 NS IPv6) rendered as that many marker characters with
no separator, and the concrete dual-stack scenario record scores a
string of length 5. -/
theorem rank_additive_score :
    (∀ r : Result, Rank (some r) = strRepeat "*" (specScore r)) ∧
    (Rank (some rDual)).length = 5 :=
  ⟨Rank_some_eq, by decide⟩

/-- Claim C5: the ranker emits the five-character unknown sentinel
exactly for a missing record, and a present record satisfying none of
the four conditions yields the empty string, never the sentinel. -/
theorem rank_sentinel_iff_missing :
    (∀ x : Option Result, Rank x = "?????" ↔ x = none) ∧
    (∀ r : Result, r.Host6 = [] → (r.MX4 = [] ∨ r.MX6 = []) →
      (r.WWW4 = [] ∨ r.WWW6 = []) → r.NS6 = [] → Rank (some r) = "") := by
  constructor
  · intro x
    constructor
    · intro h
      cases x with
      | none => rfl
      | some r =>
        rw [Rank_some_eq] at h
        exact absurd h (rank_star_ne _)
    · intro h
      rw [h]
      rfl
  · intro r h6 hmx hw hns
    have h1 : ¬ 0 < r.Host6.length := by rw [h6]; simp
    have h4 : ¬ 0 < r.NS6.length := by rw [hns]; simp
    have h2 : ¬ (0 < r.MX4.length ∧ 0 < r.MX6.length) := by
      rcases hmx with h | h <;> rw [h] <;> simp
    have h3 : ¬ (0 < r.WWW4.length ∧ 0 < r.WWW6.length) := by
      rcases hw with h | h <;> rw [h] <;> simp
    have hz : specScore r = 0 := by
      unfold specScore
      rw [if_neg h1, if_neg h2, if_neg h3, if_neg h4]
    rw [Rank_some_eq, hz]
    rfl

/-- Witness for claim C5 at concrete inputs: the sentinel appears for a
missing record only, and a zero-condition record renders empty. -/
theorem rank_sentinel_iff_missing_witness :
    (Rank (some emptyRec) = "?????" ↔ some emptyRec = none) ∧
    Rank none = "?????" ∧ Rank (some emptyRec) = "" :=
  ⟨rank_sentinel_iff_missing.1 (some emptyRec),
   (rank_sentinel_iff_missing.1 none).mpr rfl,
   rank_sentinel_iff_missing.2 emptyRec rfl (Or.inl rfl) (Or.inl rfl) rfl⟩

/-- Claim C10: for every non-missing record the score stays at most 5,
the rendered string is a run of the star marker only, its length never
exceeds the sentinel length, and it never equals the sentinel. -/
theorem rank_bounded_stars (r : Result) :
    specScore r ≤ 5 ∧
    (Rank (some r)).length ≤ ("?????" : String).length ∧
    (Rank (some r)).data = List.replicate (Rank (some r)).length '*' ∧
    Rank (some r) ≠ "?????" := by
  have hb : specScore r ≤ 5 := by
    unfold specScore
    split_ifs <;> omega
  refine ⟨hb, ?_, ?_, ?_⟩
  · rw [Rank_some_eq, strRepeat_length]
    show specScore r * 1 ≤ 5
    omega
  · rw [Rank_some_eq, strRepeat_star_data, strRepeat_length]
    show List.replicate (specScore r) '*' = List.replicate (specScore r * 1) '*'
    rw [Nat.mul_one]
  · rw [Rank_some_eq]
    exact rank_star_ne _

/-- Witness for claim C10 at the concrete dual-stack record. -/
theorem rank_bounded_stars_witness :
    specScore rDual ≤ 5 ∧
    (Rank (some rDual)).length ≤ ("?????" : String).length ∧
    (Rank (some rDual)).data = List.replicate (Rank (some rDual)).length '*' ∧
    Rank (some rDual) ≠ "?????" :=
  rank_bounded_stars rDual

theorem stageOk_tolerateNF (x : Except GoErr (List String × List String))
    (mk : GoErr → QueryErr) (h : stageOk x = true) :
    ∃ p, tolerateNF x mk = .ok p := by
  cases x with
  | ok p => exact ⟨p, rfl⟩
  | error e =>
    simp only [stageOk] at h
    exact ⟨([], []), by simp [tolerateNF, h]⟩

theorem stageOk_tolerateNFList (x : Except GoErr (List String))
    (mk : GoErr → QueryErr) (h : stageOk x = true) :
    tolerateNFList x mk = .ok (okList x) := by
  cases x with
  | ok l => rfl
  | error e =>
    simp only [stageOk] at h
    simp [tolerateNFList, okList, h]

theorem resolveNSHosts_ok (env : DnsEnv) (l : List String)
    (h : ∀ x ∈ l, exceptOk (QueryHost env x) = true) :
    ∃ p, resolveNSHosts env l = .ok p := by
  induction l with
  | nil => exact ⟨([], []), rfl⟩
  | cons a t ih =>
    have ha := h a (List.mem_cons_self a t)
    cases hq : QueryHost env a with
    | error e => rw [hq] at ha; simp [exceptOk] at ha
    | ok p =>
      obtain ⟨q, hqt⟩ := ih (fun x hx => h x (List.mem_cons_of_mem _ hx))
      obtain ⟨p4, p6⟩ := p
      obtain ⟨q4, q6⟩ := q
      exact ⟨(p4 ++ q4, p6 ++ q6), by simp [resolveNSHosts, hq, hqt]⟩

theorem resolveMXHosts_ok (env : DnsEnv) (l : List String)
    (h : ∀ x ∈ l, stageOk (QueryHost env x) = true) :
    ∃ p, resolveMXHosts env l = .ok p := by
  induction l with
  | nil => exact ⟨([], []), rfl⟩
  | cons a t ih =>
    have ha := h a (List.mem_cons_self a t)
    obtain ⟨q, hqt⟩ := ih (fun x hx => h x (List.mem_cons_of_mem _ hx))
    obtain ⟨q4, q6⟩ := q
    cases hq : QueryHost env a with
    | error e =>
      rw [hq] at ha
      simp only [stageOk] at ha
      exact ⟨(q4, q6), by simp [resolveMXHosts, hq, ha, hqt]⟩
    | ok p =>
      obtain ⟨p4, p6⟩ := p
      exact ⟨(p4 ++ q4, p6 ++ q6), by simp [resolveMXHosts, hq, hqt]⟩

/-- Claim C1, amended: when the apex, www and NS stages pass, every name
server host resolves, the MX lookup passes and every individual mail
exchanger host either resolves or fails with the not-found kind of
error, the per-exchanger failures are tolerated and QueryDomain still
returns a record.  (The counterexample theorem shows a per-exchanger
failure of any other kind aborts the resolution, so the tolerance does
not extend to every failure kind as the original claim stated.) -/
theorem queryDomain_tolerates_mx_notfound (env : DnsEnv) (dom : String)
    (ha : stageOk (QueryHost env (trimPref dom "www.")) = true)
    (hw : stageOk (QueryHost env ("www." ++ trimPref dom "www.")) = true)
    (hns : stageOk (env.lookupNS (trimPref dom "www.")) = true)
    (hns0 : nsHostsOf env (trimPref dom "www.") ≠ [])
    (hnsh : ∀ x ∈ nsHostsOf env (trimPref dom "www."), exceptOk (QueryHost env x) = true)
    (hmx : stageOk (env.lookupMX (trimPref dom "www.")) = true)
    (hmxh : ∀ x ∈ mxHostsOf env (trimPref dom "www."), stageOk (QueryHost env x) = true) :
    exceptOk (QueryDomain env dom) = true := by
  simp only [nsHostsOf] at hns0 hnsh
  simp only [mxHostsOf] at hmxh
  obtain ⟨⟨h4, h6⟩, e1⟩ := stageOk_tolerateNF _ QueryErr.queryHostFailed ha
  obtain ⟨⟨w4, w6⟩, e2⟩ := stageOk_tolerateNF _ QueryErr.queryHostWwwFailed hw
  have e3 := stageOk_tolerateNFList _ QueryErr.lookupNSFailed hns
  obtain ⟨⟨ns4, ns6⟩, e4⟩ := resolveNSHosts_ok env _ hnsh
  have e5 := stageOk_tolerateNFList _ QueryErr.lookupMXFailed hmx
  obtain ⟨⟨mx4, mx6⟩, e6⟩ := resolveMXHosts_ok env _ hmxh
  have hlen : ¬ (okList (env.lookupNS (trimPref dom "www."))).length = 0 := by
    simpa [List.length_eq_zero] using hns0
  unfold QueryDomain queryDomainGo
  simp only [e1, e2, e3, e4, e5, e6, if_neg hlen]
  rfl

/-- Witness for the amended claim C1: one mail exchanger host failing
with the not-found error, yet resolution succeeds. -/
theorem queryDomain_tolerates_mx_notfound_witness :
    stageOk (QueryHost envMxNF "mx1.example.net") = true ∧
    isNotfound (GoErr.dnsError true "no such host") = true ∧
    exceptOk (QueryDomain envMxNF "example.com") = true :=
  ⟨rfl, rfl,
   queryDomain_tolerates_mx_notfound envMxNF "example.com"
     rfl rfl rfl (by decide) (by decide) rfl (by decide)⟩

/-- Counterexample to claim C1 as stated: in envMxHard the apex, www and
NS lookups all succeed and every name server host resolves, yet a
mail exchanger host failing with an error that is not the not-found kind
aborts the whole resolution instead of being tolerated as zero
addresses. -/
theorem mx_hard_failure_aborts :
    stageOk (QueryHost envMxHard "example.com") = true ∧
    stageOk (QueryHost envMxHard "www.example.com") = true ∧
    stageOk (envMxHard.lookupNS "example.com") = true ∧
    nsHostsOf envMxHard "example.com" ≠ [] ∧
    (∀ x ∈ nsHostsOf envMxHard "example.com", exceptOk (QueryHost envMxHard x) = true) ∧
    isNotfound (GoErr.other "i/o timeout") = false ∧
    QueryDomain envMxHard "example.com" =
      .error (QueryErr.mxHostFailed (GoErr.other "i/o timeout")) := by
  decide

/-- Claim C2: with the NS lookup passing (success, or the tolerated
not-found) and zero name servers, resolution never returns a record, and
when the apex and www stages pass as well the error is precisely the
no-name-servers condition. -/
theorem noNS_hard_error (env : DnsEnv) (dom : String)
    (hns : stageOk (env.lookupNS (trimPref dom "www.")) = true)
    (h0 : nsHostsOf env (trimPref dom "www.") = []) :
    exceptOk (QueryDomain env dom) = false ∧
    (stageOk (QueryHost env (trimPref dom "www.")) = true →
     stageOk (QueryHost env ("www." ++ trimPref dom "www.")) = true →
     QueryDomain env dom = .error QueryErr.noNameServers) := by
  simp only [nsHostsOf] at h0
  have e3 := stageOk_tolerateNFList _ QueryErr.lookupNSFailed hns
  rw [h0] at e3
  constructor
  · unfold QueryDomain queryDomainGo
    cases c1 : tolerateNF (QueryHost env (trimPref dom "www.")) QueryErr.queryHostFailed with
    | error e => simp [c1, exceptOk]
    | ok p =>
      obtain ⟨h4, h6⟩ := p
      cases c2 : tolerateNF (QueryHost env ("www." ++ trimPref dom "www."))
          QueryErr.queryHostWwwFailed with
      | error e => simp [c1, c2, exceptOk]
      | ok q =>
        obtain ⟨w4, w6⟩ := q
        simp [c1, c2, e3, exceptOk]
  · intro ha hw
    obtain ⟨⟨h4, h6⟩, e1⟩ := stageOk_tolerateNF _ QueryErr.queryHostFailed ha
    obtain ⟨⟨w4, w6⟩, e2⟩ := stageOk_tolerateNF _ QueryErr.queryHostWwwFailed hw
    unfold QueryDomain queryDomainGo
    simp [e1, e2, e3]

/-- Witness for claim C2: an environment whose NS lookup succeeds with
zero servers fails with the no-name-servers error. -/
theorem noNS_hard_error_witness :
    stageOk (envNoNS.lookupNS "x.example") = true ∧
    nsHostsOf envNoNS "x.example" = [] ∧
    exceptOk (QueryDomain envNoNS "x.example") = false ∧
    QueryDomain envNoNS "x.example" = .error QueryErr.noNameServers := by
  refine ⟨rfl, rfl, ?_, ?_⟩
  · exact (noNS_hard_error envNoNS "x.example" rfl rfl).1
  · exact (noNS_hard_error envNoNS "x.example" rfl rfl).2 rfl rfl

theorem classifyAddr_fst_mem (acc : List String × List String) (h s : String)
    (hs : s ∈ (classifyAddr acc h).1) : s ∈ acc.1 ∨ isV4Render s := by
  unfold classifyAddr at hs
  cases hp : parseAddr h with
  | none => rw [hp] at hs; exact Or.inl hs
  | some a =>
    rw [hp] at hs
    cases a with
    | v4 b0 b1 b2 b3 =>
      simp only [Addr.is4, Addr.is6, if_pos, if_neg, Bool.false_eq_true,
        ite_false, ite_true] at hs
      rcases List.mem_append.1 hs with h1 | h1
      · exact Or.inl h1
      · exact Or.inr ⟨.v4 b0 b1 b2 b3, rfl, (List.mem_singleton.1 h1).symm⟩
    | v6 g0 g1 g2 g3 g4 g5 g6 g7 =>
      simp only [Addr.is4, Addr.is6, Bool.false_eq_true, ite_false, ite_true] at hs
      exact Or.inl hs

theorem classifyAddr_snd_mem (acc : List String × List String) (h s : String)
    (hs : s ∈ (classifyAddr acc h).2) : s ∈ acc.2 ∨ isV6Render s := by
  unfold classifyAddr at hs
  cases hp : parseAddr h with
  | none => rw [hp] at hs; exact Or.inl hs
  | some a =>
    rw [hp] at hs
    cases a with
    | v4 b0 b1 b2 b3 =>
      simp only [Addr.is4, Addr.is6, Bool.false_eq_true, ite_false, ite_true] at hs
      exact Or.inl hs
    | v6 g0 g1 g2 g3 g4 g5 g6 g7 =>
      simp only [Addr.is4, Addr.is6, Bool.false_eq_true, ite_false, ite_true] at hs
      rcases List.mem_append.1 hs with h1 | h1
      · exact Or.inl h1
      · exact Or.inr ⟨.v6 g0 g1 g2 g3 g4 g5 g6 g7, rfl, (List.mem_singleton.1 h1).symm⟩

theorem classify_foldl_fst (l : List String) :
    ∀ acc s, s ∈ (l.foldl classifyAddr acc).1 → s ∈ acc.1 ∨ isV4Render s := by
  induction l with
  | nil => intro acc s hs; exact Or.inl hs
  | cons a t ih =>
    intro acc s hs
    rcases ih (classifyAddr acc a) s hs with h1 | h1
    · exact classifyAddr_fst_mem acc a s h1
    · exact Or.inr h1

theorem classify_foldl_snd (l : List String) :
    ∀ acc s, s ∈ (l.foldl classifyAddr acc).2 → s ∈ acc.2 ∨ isV6Render s := by
  induction l with
  | nil => intro acc s hs; exact Or.inl hs
  | cons a t ih =>
    intro acc s hs
    rcases ih (classifyAddr acc a) s hs with h1 | h1
    · exact classifyAddr_snd_mem acc a s h1
    · exact Or.inr h1

theorem classifyAddrs_fam (addrs : List String) :
    (∀ s ∈ (classifyAddrs addrs).1, isV4Render s) ∧
    (∀ s ∈ (classifyAddrs addrs).2, isV6Render s) := by
  constructor
  · intro s hs
    rcases classify_foldl_fst addrs ([], []) s hs with h1 | h1
    · simp at h1
    · exact h1
  · intro s hs
    rcases classify_foldl_snd addrs ([], []) s hs with h1 | h1
    · simp at h1
    · exact h1

theorem queryHost_ok_fam (env : DnsEnv) (host : String) (p : List String × List String)
    (hq : QueryHost env host = .ok p) :
    (∀ s ∈ p.1, isV4Render s) ∧ (∀ s ∈ p.2, isV6Render s) := by
  unfold QueryHost at hq
  cases hl : env.lookupHost host with
  | error e => rw [hl] at hq; simp at hq
  | ok addrs =>
    rw [hl] at hq
    simp only [Except.ok.injEq] at hq
    subst hq
    exact classifyAddrs_fam addrs

theorem tolerate_queryHost_fam (env : DnsEnv) (host : String) (mk : GoErr → QueryErr)
    (p : List String × List String)
    (h : tolerateNF (QueryHost env host) mk = .ok p) :
    (∀ s ∈ p.1, isV4Render s) ∧ (∀ s ∈ p.2, isV6Render s) := by
  unfold tolerateNF at h
  cases hq : QueryHost env host with
  | ok q =>
    rw [hq] at h
    simp only [Except.ok.injEq] at h
    subst h
    exact queryHost_ok_fam env host q hq
  | error e =>
    simp only [hq] at h
    by_cases hn : isNotfound e = true
    · rw [if_pos hn] at h
      simp only [Except.ok.injEq] at h
      subst h
      constructor <;> intro s hs <;> simp at hs
    · rw [if_neg hn] at h
      simp at h

theorem resolveNSHosts_fam (env : DnsEnv) (l : List String)
    (p : List String × List String) (h : resolveNSHosts env l = .ok p) :
    (∀ s ∈ p.1, isV4Render s) ∧ (∀ s ∈ p.2, isV6Render s) := by
  induction l generalizing p with
  | nil =>
    unfold resolveNSHosts at h
    simp only [Except.ok.injEq] at h
    subst h
    constructor <;> intro s hs <;> simp at hs
  | cons a t ih =>
    unfold resolveNSHosts at h
    cases hq : QueryHost env a with
    | error e => rw [hq] at h; simp at h
    | ok q =>
      obtain ⟨q4, q6⟩ := q
      rw [hq] at h
      cases hr : resolveNSHosts env t with
      | error e => rw [hr] at h; simp at h
      | ok rr =>
        obtain ⟨r4, r6⟩ := rr
        rw [hr] at h
        simp only [Except.ok.injEq] at h
        subst h
        have hf := queryHost_ok_fam env a (q4, q6) hq
        have hrf := ih (r4, r6) hr
        constructor
        · intro s hs
          rcases List.mem_append.1 hs with h1 | h1
          · exact hf.1 s h1
          · exact hrf.1 s h1
        · intro s hs
          rcases List.mem_append.1 hs with h1 | h1
          · exact hf.2 s h1
          · exact hrf.2 s h1

theorem resolveMXHosts_fam (env : DnsEnv) (l : List String)
    (p : List String × List String) (h : resolveMXHosts env l = .ok p) :
    (∀ s ∈ p.1, isV4Render s) ∧ (∀ s ∈ p.2, isV6Render s) := by
  induction l generalizing p with
  | nil =>
    unfold resolveMXHosts at h
    simp only [Except.ok.injEq] at h
    subst h
    constructor <;> intro s hs <;> simp at hs
  | cons a t ih =>
    unfold resolveMXHosts at h
    cases hq : QueryHost env a with
    | error e =>
      simp only [hq] at h
      by_cases hn : isNotfound e = true
      · rw [if_pos hn] at h
        cases hr : resolveMXHosts env t with
        | error e2 => rw [hr] at h; simp at h
        | ok rr =>
          obtain ⟨r4, r6⟩ := rr
          rw [hr] at h
          simp only [Except.ok.injEq] at h
          subst h
          exact ih (r4, r6) hr
      · rw [if_neg hn] at h
        simp at h
    | ok q =>
      obtain ⟨q4, q6⟩ := q
      rw [hq] at h
      cases hr : resolveMXHosts env t with
      | error e2 => rw [hr] at h; simp at h
      | ok rr =>
        obtain ⟨r4, r6⟩ := rr
        rw [hr] at h
        simp only [Except.ok.injEq] at h
        subst h
        have hf := queryHost_ok_fam env a (q4, q6) hq
        have hrf := ih (r4, r6) hr
        constructor
        · intro s hs
          rcases List.mem_append.1 hs with h1 | h1
          · exact hf.1 s h1
          · exact hrf.1 s h1
        · intro s hs
          rcases List.mem_append.1 hs with h1 | h1
          · exact hf.2 s h1
          · exact hrf.2 s h1

theorem sortStrings_sorted (l : List String) :
    List.Sorted (fun a b => a ≤ b) (sortStrings l) :=
  List.sorted_insertionSort _ l

theorem sortStrings_mem (l : List String) (s : String) :
    s ∈ sortStrings l ↔ s ∈ l :=
  List.mem_insertionSort _

theorem queryDomainGo_ok_inv (env : DnsEnv) (d : String) (r : Result)
    (h : queryDomainGo env d = .ok r) :
    r.Domain = d ∧ r.DNS6Only = false ∧
    ∃ h4 h6 w4 w6 nss ns4 ns6 mxs mx4 mx6,
      tolerateNF (QueryHost env d) QueryErr.queryHostFailed = .ok (h4, h6) ∧
      tolerateNF (QueryHost env ("www." ++ d)) QueryErr.queryHostWwwFailed = .ok (w4, w6) ∧
      tolerateNFList (env.lookupNS d) QueryErr.lookupNSFailed = .ok nss ∧
      nss ≠ [] ∧
      resolveNSHosts env nss = .ok (ns4, ns6) ∧
      tolerateNFList (env.lookupMX d) QueryErr.lookupMXFailed = .ok mxs ∧
      resolveMXHosts env mxs = .ok (mx4, mx6) ∧
      r.Host4 = sortStrings h4 ∧ r.Host6 = sortStrings h6 ∧
      r.WWW4 = sortStrings w4 ∧ r.WWW6 = sortStrings w6 ∧
      r.NS4 = sortStrings ns4 ∧ r.NS6 = sortStrings ns6 ∧
      r.MX4 = sortStrings mx4 ∧ r.MX6 = sortStrings mx6 := by
  unfold queryDomainGo at h
  cases c1 : tolerateNF (QueryHost env d) QueryErr.queryHostFailed with
  | error e => simp only [c1] at h; simp at h
  | ok p1 =>
    obtain ⟨h4, h6⟩ := p1
    simp only [c1] at h
    cases c2 : tolerateNF (QueryHost env ("www." ++ d)) QueryErr.queryHostWwwFailed with
    | error e => simp only [c2] at h; simp at h
    | ok p2 =>
      obtain ⟨w4, w6⟩ := p2
      simp only [c2] at h
      cases c3 : tolerateNFList (env.lookupNS d) QueryErr.lookupNSFailed with
      | error e => simp only [c3] at h; simp at h
      | ok nss =>
        simp only [c3] at h
        by_cases hl : nss.length = 0
        · rw [if_pos hl] at h; simp at h
        · rw [if_neg hl] at h
          cases c4 : resolveNSHosts env nss with
          | error e => simp only [c4] at h; simp at h
          | ok p3 =>
            obtain ⟨ns4, ns6⟩ := p3
            simp only [c4] at h
            cases c5 : tolerateNFList (env.lookupMX d) QueryErr.lookupMXFailed with
            | error e => simp only [c5] at h; simp at h
            | ok mxs =>
              simp only [c5] at h
              cases c6 : resolveMXHosts env mxs with
              | error e => simp only [c6] at h; simp at h
              | ok p4 =>
                obtain ⟨mx4, mx6⟩ := p4
                simp only [c6] at h
                simp only [Except.ok.injEq] at h
                subst h
                refine ⟨rfl, rfl, h4, h6, w4, w6, nss, ns4, ns6, mxs, mx4, mx6,
                  rfl, rfl, rfl, ?_, c4, rfl, c6, rfl, rfl, rfl, rfl, rfl, rfl, rfl, rfl⟩
                intro hn
                exact hl (by rw [hn]; rfl)

/-- Claim C3: every record a successful resolution returns has all eight
address lists sorted ascending in the lexicographic order of the
canonical textual form, with every entry of a v4 list the rendering of
an IPv4 address and every entry of a v6 list the rendering of an IPv6
address. -/
theorem queryDomain_sorted_families (env : DnsEnv) (dom : String) (r : Result)
    (h : QueryDomain env dom = .ok r) : sortedAndFamilyOk r := by
  obtain ⟨-, -, h4, h6, w4, w6, nss, ns4, ns6, mxs, mx4, mx6,
    c1, c2, c3, hne, c4, c5, c6, e1, e2, e3, e4, e5, e6, e7, e8⟩ :=
    queryDomainGo_ok_inv env (trimPref dom "www.") r h
  have f1 := tolerate_queryHost_fam env (trimPref dom "www.")
    QueryErr.queryHostFailed (h4, h6) c1
  have f2 := tolerate_queryHost_fam env ("www." ++ trimPref dom "www.")
    QueryErr.queryHostWwwFailed (w4, w6) c2
  have f3 := resolveNSHosts_fam env nss (ns4, ns6) c4
  have f4 := resolveMXHosts_fam env mxs (mx4, mx6) c6
  unfold sortedAndFamilyOk
  rw [e1, e2, e3, e4, e5, e6, e7, e8]
  refine ⟨sortStrings_sorted _, sortStrings_sorted _, sortStrings_sorted _,
    sortStrings_sorted _, sortStrings_sorted _, sortStrings_sorted _,
    sortStrings_sorted _, sortStrings_sorted _, ?_, ?_, ?_, ?_, ?_, ?_, ?_, ?_⟩
  · intro s hs; exact f1.1 s ((sortStrings_mem _ _).1 hs)
  · intro s hs; exact f1.2 s ((sortStrings_mem _ _).1 hs)
  · intro s hs; exact f2.1 s ((sortStrings_mem _ _).1 hs)
  · intro s hs; exact f2.2 s ((sortStrings_mem _ _).1 hs)
  · intro s hs; exact f3.1 s ((sortStrings_mem _ _).1 hs)
  · intro s hs; exact f3.2 s ((sortStrings_mem _ _).1 hs)
  · intro s hs; exact f4.1 s ((sortStrings_mem _ _).1 hs)
  · intro s hs; exact f4.2 s ((sortStrings_mem _ _).1 hs)

/-- Witness for claim C3 at a concrete environment and record. -/
theorem queryDomain_sorted_families_witness :
    QueryDomain envS "example.com" = .ok rW ∧ sortedAndFamilyOk rW :=
  ⟨rfl, queryDomain_sorted_families envS "example.com" rW rfl⟩

/-- A list is a Boolean prefix of itself followed by anything. -/
theorem isPrefixOf_self_append (l t : List Char) : l.isPrefixOf (l ++ t) = true := by
  induction l with
  | nil => simp [List.isPrefixOf]
  | cons c cs ih => simp [List.isPrefixOf, ih]

/-- Claim C7, amended: for every domain name that does not itself start
with the www label, resolving the www-prefixed variant and the bare name
give the same result, and the record carries the stripped name. -/
theorem www_prefix_stripped_once (env : DnsEnv) (d : String) (r : Result)
    (hnp : hasPref d "www." = false)
    (hok : QueryDomain env ("www." ++ d) = .ok r) :
    QueryDomain env ("www." ++ d) = QueryDomain env d ∧ r.Domain = d := by
  have hp : ("www." : String).data.isPrefixOf ("www." ++ d).data = true := by
    rw [String.data_append]
    exact isPrefixOf_self_append _ _
  have ht1 : trimPref ("www." ++ d) "www." = d := by
    unfold trimPref hasPref
    rw [if_pos hp, String.data_append, List.drop_left]
  have ht2 : trimPref d "www." = d := by
    unfold trimPref
    rw [hnp]
    simp
  constructor
  · show queryDomainGo env (trimPref ("www." ++ d) "www.") =
      queryDomainGo env (trimPref d "www.")
    rw [ht1, ht2]
  · have hd := (queryDomainGo_ok_inv env (trimPref ("www." ++ d) "www.") r hok).1
    exact hd.trans ht1

/-- Witness for the amended claim C7 at a concrete environment. -/
theorem www_prefix_stripped_once_witness :
    hasPref "example.com" "www." = false ∧
    QueryDomain envS ("www." ++ "example.com") = .ok rW ∧
    (QueryDomain envS ("www." ++ "example.com") = QueryDomain envS "example.com" ∧
     rW.Domain = "example.com") :=
  ⟨rfl, rfl, www_prefix_stripped_once envS "example.com" rW rfl rfl⟩

/-- Counterexample to claim C7 as stated: for the domain name
www.example.com the stripping is applied only once, so resolving its
www-prefixed variant yields a different record (its domain field keeps
one www label) than resolving the name itself. -/
theorem www_www_differs :
    QueryDomain envS ("www." ++ "www.example.com") ≠
      QueryDomain envS "www.example.com" := by
  decide

/-- Claim C6, amended for domains that resolve: under mode 4 the bare
name is emitted exactly when the record has a combined apex or www IPv4
address and no combined IPv6 address, and nothing is emitted otherwise;
symmetrically under mode 6.  (On resolution failure these modes emit the
name with the error cause, as the counterexample theorem shows.) -/
theorem checkDom_filter_modes (env : DnsEnv) (dom : String) (r : Result)
    (h : QueryDomain env dom = .ok r) :
    checkDom env dom 4 =
      (if 0 < r.Host4.length + r.WWW4.length ∧ r.Host6.length + r.WWW6.length = 0
       then some r.Domain else none) ∧
    checkDom env dom 6 =
      (if 0 < r.Host6.length + r.WWW6.length ∧ r.Host4.length + r.WWW4.length = 0
       then some r.Domain else none) := by
  constructor
  · simp only [checkDom, h]
    by_cases h6 : 0 < r.Host6.length + r.WWW6.length
    · have hz : ¬ r.Host6.length + r.WWW6.length = 0 := by omega
      by_cases h4 : 0 < r.Host4.length + r.WWW4.length
      · simp [h4, h6, hz]
      · simp [h4, h6, hz]
    · have hz : r.Host6.length + r.WWW6.length = 0 := by omega
      by_cases h4 : 0 < r.Host4.length + r.WWW4.length
      · simp [h4, h6, hz]
      · simp [h4, h6, hz]
  · simp only [checkDom, h]
    by_cases h4 : 0 < r.Host4.length + r.WWW4.length
    · have hz : ¬ r.Host4.length + r.WWW4.length = 0 := by omega
      by_cases h6 : 0 < r.Host6.length + r.WWW6.length
      · simp [h4, h6, hz]
      · simp [h4, h6, hz]
    · have hz : r.Host4.length + r.WWW4.length = 0 := by omega
      by_cases h6 : 0 < r.Host6.length + r.WWW6.length
      · simp [h4, h6, hz]
      · simp [h4, h6, hz]

/-- Witness for the amended claim C6: an IPv4-only record is emitted
under mode 4 and suppressed under mode 6. -/
theorem checkDom_filter_modes_witness :
    QueryDomain envS "example.com" = .ok rW ∧
    checkDom envS "example.com" 4 = some "example.com" ∧
    checkDom envS "example.com" 6 = none := by
  have h := checkDom_filter_modes envS "example.com" rW rfl
  refine ⟨rfl, ?_, ?_⟩
  · rw [h.1]; decide
  · rw [h.2]; decide

/-- Counterexample to claim C6 as stated: under mode 4 a domain whose
resolution fails emits the name together with the error cause — neither
nothing nor only the name. -/
theorem checkDom_error_line_emitted :
    checkDom envApexHard "bad.example" 4 =
      some "bad.example, (QueryHost failed: timeout)" ∧
    checkDom envApexHard "bad.example" 4 ≠ some "bad.example" ∧
    checkDom envApexHard "bad.example" 4 ≠ none := by
  decide

/-- Claim C8: the classifier never fails once the resolver answered — it
returns exactly the classified pair — each parsed input string is placed,
in canonical form, in the single list of its address family, and an
unparsable string is dropped silently. -/
theorem queryHost_classifier_total :
    (∀ env : DnsEnv, ∀ host : String,
      exceptOk (QueryHost env host) = exceptOk (env.lookupHost host)) ∧
    (∀ env : DnsEnv, ∀ host addrs, env.lookupHost host = .ok addrs →
      QueryHost env host = .ok (classifyAddrs addrs)) ∧
    (∀ acc : List String × List String, ∀ s, parseAddr s = none →
      classifyAddr acc s = acc) ∧
    (∀ acc : List String × List String, ∀ s a, parseAddr s = some a →
      (a.is4 = true ∧ a.is6 = false ∧
        classifyAddr acc s = (acc.1 ++ [addrString a], acc.2)) ∨
      (a.is4 = false ∧ a.is6 = true ∧
        classifyAddr acc s = (acc.1, acc.2 ++ [addrString a]))) := by
  refine ⟨?_, ?_, ?_, ?_⟩
  · intro env host
    unfold QueryHost
    cases hl : env.lookupHost host <;> rfl
  · intro env host addrs hl
    unfold QueryHost
    rw [hl]
  · intro acc s hp
    unfold classifyAddr
    rw [hp]
  · intro acc s a hp
    unfold classifyAddr
    rw [hp]
    cases a with
    | v4 b0 b1 b2 b3 =>
      exact Or.inl ⟨rfl, rfl, by simp [Addr.is4, Addr.is6]⟩
    | v6 g0 g1 g2 g3 g4 g5 g6 g7 =>
      exact Or.inr ⟨rfl, rfl, by simp [Addr.is4, Addr.is6]⟩

/-- Witness for claim C8 at concrete inputs: a successful lookup yields
the classified pair, an unparsable string changes nothing, and a parsed
IPv4 string lands in the IPv4 list only. -/
theorem queryHost_classifier_total_witness :
    envS.lookupHost "example.com" = .ok ["192.0.2.1"] ∧
    QueryHost envS "example.com" = .ok (classifyAddrs ["192.0.2.1"]) ∧
    parseAddr "junkhost" = none ∧
    classifyAddr (["x"], ["y"]) "junkhost" = (["x"], ["y"]) ∧
    parseAddr "192.0.2.7" = some (Addr.v4 192 0 2 7) ∧
    ((Addr.is4 (Addr.v4 192 0 2 7) = true ∧ Addr.is6 (Addr.v4 192 0 2 7) = false ∧
      classifyAddr (["x"], ["y"]) "192.0.2.7" =
        (["x"] ++ [addrString (Addr.v4 192 0 2 7)], ["y"])) ∨
     (Addr.is4 (Addr.v4 192 0 2 7) = false ∧ Addr.is6 (Addr.v4 192 0 2 7) = true ∧
      classifyAddr (["x"], ["y"]) "192.0.2.7" =
        (["x"], ["y"] ++ [addrString (Addr.v4 192 0 2 7)]))) :=
  ⟨rfl, queryHost_classifier_total.2.1 envS "example.com" ["192.0.2.1"] rfl, rfl,
   queryHost_classifier_total.2.2.1 (["x"], ["y"]) "junkhost" rfl, rfl,
   queryHost_classifier_total.2.2.2 (["x"], ["y"]) "192.0.2.7" (Addr.v4 192 0 2 7) rfl⟩
